import Mathlib

/-!
Shallow embedding of subshowcasebot/bot.py and verification of its
specification claims.

Timestamps and durations are modelled as integers (seconds).  Python
exceptions are modelled by an "Option" result: "none" means the call
raised; the "List Effect" component records the mutating gateway calls
performed before the function returned or raised.  Attributes that may
be absent or "None" in Python (submission.author, submission.banned_by,
comment.author, link_flair_template_id) are modelled as "Option" fields.
-/

namespace SCB

/-- State enum of bot.py (lines 41-44). -/
inductive State where
  | CHECK
  | CHECK_SLOW
  | IGNORE
  deriving DecidableEq, Repr

/-- Mutating gateway calls that the bot can issue, in the order the code
issues them.  String payloads are the configured message texts. -/
inductive Effect where
  | approve
  | deleteComment
  | removePost
  | sendRemovalMessage (msg : String)
  | replySubmission (msg : String)
  | distinguishSticky
  | replyComment (msg : String)
  | distinguish
  deriving DecidableEq, Repr

/-- Reply-level node under a comment: an ordinary reply (whose author may
be absent when deleted) or a praw MoreComments placeholder. -/
inductive ReplyNode where
  | comment (author : Option String) (created_utc : Int)
  | more
  deriving DecidableEq, Repr

/-- Top-level comment of a submission. -/
structure Comment where
  author : Option String
  created_utc : Int
  replies : List ReplyNode
  deriving DecidableEq, Repr

/-- Submission metadata consumed by the bot.  "banned_by = none" covers
both an absent attribute and a "None" value (bot.py line 234). -/
structure Submission where
  author : Option String
  banned_by : Option String
  is_self : Bool
  approved : Bool
  link_flair_template_id : Option String
  created_utc : Int
  comments : List Comment
  deriving DecidableEq, Repr

/-- Configuration fields used by the tracker (bot.py lines 14-38).
All durations are in the same abstract time unit as timestamps. -/
structure Config where
  flair : String
  max_delay : Int
  pull_limit : Nat
  ignore_older : Int
  check_slow_delay : Int
  warn_delay : Int
  warn_message : String
  remove_delay : Int
  remove_message : String
  top_level_only_message : String
  deriving DecidableEq, Repr

/-- Per-tracked-post state record (bot.py lines 46-50). -/
structure StateData where
  state : State
  noticed_at : Int
  last_check : Int
  deriving DecidableEq, Repr

/-- StateData constructor with the default "last_check = noticed_at"
(bot.py line 50: "last_check or noticed_at" with last_check None). -/
def StateData.make (state : State) (noticed_at : Int) : StateData :=
  ⟨state, noticed_at, noticed_at⟩

/-- Loop body of get_comments (bot.py lines 294-305): walks top-level
comments, skipping authorless (deleted) ones, assigning the submitter's
comment and the bot's comment (with its age), and breaking once both are
assigned. -/
def get_comments_go (submitter_name my_name : String) (now : Int) :
    List Comment → Option Comment → Option Comment → Option Int →
    Option Comment × Option Comment × Option Int
  | [], sub_c, my_c, my_age => (sub_c, my_c, my_age)
  | c :: rest, sub_c, my_c, my_age =>
    match c.author with
    | none => get_comments_go submitter_name my_name now rest sub_c my_c my_age
    | some an =>
      if an = submitter_name then
        if my_c.isSome then (some c, my_c, my_age)
        else get_comments_go submitter_name my_name now rest (some c) my_c my_age
      else if an = my_name then
        if sub_c.isSome then (sub_c, some c, some (now - c.created_utc))
        else get_comments_go submitter_name my_name now rest sub_c (some c)
          (some (now - c.created_utc))
      else get_comments_go submitter_name my_name now rest sub_c my_c my_age

/-- get_comments (bot.py lines 288-307).  The result is "none" when the
dereference "submission.author.name" (line 293) raises because the
author is absent. -/
def get_comments (my_name : String) (now : Int) (s : Submission) :
    Option (Option Comment × Option Comment × Option Int) :=
  match s.author with
  | none => none
  | some submitter_name =>
    some (get_comments_go submitter_name my_name now s.comments none none none)

/-- check_replied_to_comment (bot.py lines 320-332): walks one level of
replies, skipping MoreComments placeholders; dereferencing a deleted
reply's author (line 329) raises, modelled as the outer "none". -/
def check_replied_to_comment (name : String) : List ReplyNode → Option (Option ReplyNode)
  | [] => some none
  | ReplyNode.more :: rest => check_replied_to_comment name rest
  | ReplyNode.comment a t :: rest =>
    match a with
    | none => none
    | some an =>
      if an = name then some (some (ReplyNode.comment a t))
      else check_replied_to_comment name rest

/-- tell_user_top_level_only (bot.py lines 334-338): reply to the user's
reply with the nudge message and distinguish it. -/
def tell_user_top_level_only (cfg : Config) : List Effect :=
  [Effect.replyComment cfg.top_level_only_message, Effect.distinguish]

/-- check_tell_user_top_level_only (bot.py lines 309-317).  Returns the
effects performed and whether the call completed without raising. -/
def check_tell_user_top_level_only (cfg : Config) (my_name : String)
    (s : Submission) (my_comment : Comment) : List Effect × Bool :=
  match s.author with
  | none => ([], false)
  | some an =>
    match check_replied_to_comment an my_comment.replies with
    | none => ([], false)
    | some none => ([], true)
    | some (some _) =>
      match check_replied_to_comment my_name my_comment.replies with
      | none => ([], false)
      | some none => (tell_user_top_level_only cfg, true)
      | some (some _) => ([], true)

/-- warn_submission (bot.py lines 346-349). -/
def warn_submission (cfg : Config) : List Effect :=
  [Effect.replySubmission cfg.warn_message, Effect.distinguishSticky]

/-- remove_submission (bot.py lines 340-344): delete the warning comment,
remove the post, send the removal message. -/
def remove_submission (cfg : Config) : List Effect :=
  [Effect.deleteComment, Effect.removePost, Effect.sendRemovalMessage cfg.remove_message]

/-- approve_submission (bot.py lines 351-357): approve when the post was
removed (by us), delete the warning comment when it exists. -/
def approve_submission (removed : Bool) (warning_comment : Option Comment) : List Effect :=
  (if removed then [Effect.approve] else []) ++
  (if warning_comment.isSome then [Effect.deleteComment] else [])

/-- Body of check_submission after the banned_by dispatch (bot.py lines
242-286).  The "match removed, warn_age" step models line 255:
"removed and warn_age >= config.remove_delay" raises a TypeError when
"removed" is true and warn_age is None.  The guard of line 266,
"warn_age and warn_age >= config.remove_delay", is falsy when warn_age
is None or a zero timedelta. -/
def check_submission_body (cfg : Config) (my_name : String) (now : Int)
    (s : Submission) (age : Int) (removed : Bool) : List Effect × Option State :=
  match get_comments my_name now s with
  | none => ([], none)
  | some (sub_comment, warning_comment, warn_age) =>
    match sub_comment with
    | some _ => (approve_submission removed warning_comment, some State.IGNORE)
    | none =>
      if cfg.warn_delay ≤ age then
        let nudge : List Effect × Bool :=
          match warning_comment with
          | some wc => check_tell_user_top_level_only cfg my_name s wc
          | none => ([], true)
        if nudge.2 then
          let after_removed_check : List Effect × Option State :=
            match warning_comment, warn_age with
            | none, _ => (nudge.1 ++ warn_submission cfg, some State.CHECK)
            | some _, some wa =>
              if wa ≠ 0 ∧ cfg.remove_delay ≤ wa then
                (nudge.1 ++ remove_submission cfg, some State.CHECK)
              else (nudge.1, some State.CHECK)
            | some _, none => (nudge.1, some State.CHECK)
          match removed, warn_age with
          | false, _ => after_removed_check
          | true, none => (nudge.1, none)
          | true, some wa =>
            if cfg.remove_delay ≤ wa then (nudge.1, some State.CHECK_SLOW)
            else after_removed_check
        else (nudge.1, none)
      else ([], some State.CHECK)

/-- check_submission (bot.py lines 229-286).  A post removed by an
identity other than the bot's is ignored immediately (lines 234-238). -/
def check_submission (cfg : Config) (my_name : String) (now : Int)
    (s : Submission) (age : Int) : List Effect × Option State :=
  match s.banned_by with
  | some banned_by =>
    if banned_by = my_name then check_submission_body cfg my_name now s age true
    else ([], some State.IGNORE)
  | none => check_submission_body cfg my_name now s age false

/-- check_sub_flair (bot.py lines 178-186): the flair template id
attribute exists and equals the configured flair. -/
def check_sub_flair (cfg : Config) (s : Submission) : Bool :=
  s.link_flair_template_id == some cfg.flair

/-- check_sub_meta (bot.py lines 188-202). -/
def check_sub_meta (s : Submission) : Bool :=
  if s.is_self then false
  else if s.approved then false
  else if s.author == none then false
  else true

/-- Per-submission branch of the monitor check loop (bot.py lines
118-133), returning the new tracked state ("none" when check_submission
raised). -/
def monitor_decide (cfg : Config) (my_name : String) (start now : Int)
    (s : Submission) : Option State :=
  let sub_age := start - s.created_utc
  let flair_delay := cfg.warn_delay + cfg.remove_delay
  if check_sub_meta s && check_sub_flair cfg s then
    (check_submission cfg my_name now s sub_age).2
  else if check_sub_meta s && !check_sub_flair cfg s then
    some (if flair_delay < sub_age then State.CHECK_SLOW else State.CHECK)
  else some State.IGNORE

/-- found_submission (bot.py lines 204-207): add an untracked submission
as CHECK; a tracked submission is left untouched.  The tracked-post map
is modelled as an association list in insertion order. -/
def found_submission (states : List (String × StateData)) (id : String)
    (noticed_at : Int) : List (String × StateData) :=
  match states.lookup id with
  | some _ => states
  | none => states ++ [(id, StateData.make State.CHECK noticed_at)]

/-- Moderation-log entry (bot.py lines 219-227): action timestamp, detail
code and the resolved target submission id. -/
structure ModAction where
  created_utc : Int
  details : String
  target_id : String
  deriving DecidableEq, Repr

/-- scan_mod_log (bot.py lines 209-227): actions newer than the retention
horizon (measured from its own "now") whose details match are resolved
and added with noticed_at = now. -/
def scan_mod_log (cfg : Config) (now : Int) (details : String)
    (entries : List ModAction) (states : List (String × StateData)) :
    List (String × StateData) :=
  entries.foldl (fun st ma =>
    if now - cfg.ignore_older < ma.created_utc then
      if ma.details = details then found_submission st ma.target_id now else st
    else st) states

/-- New-posts feed pass of monitor (bot.py lines 93-100): submissions at
least as recent as the retention horizon are added with
noticed_at = start. -/
def monitor_new_feed (cfg : Config) (start : Int) (new_feed : List (String × Int))
    (states : List (String × StateData)) : List (String × StateData) :=
  new_feed.foldl (fun st sub =>
    if start - cfg.ignore_older ≤ sub.2 then found_submission st sub.1 start else st) states

/-- Check loop of monitor (bot.py lines 105-138): every eligible entry
(CHECK, or CHECK_SLOW whose slow delay elapsed) gets a new state and
last_check = start.  The decision outcome of lines 121-133 is abstracted
as the function check_result; the timestamp bookkeeping is what this
model tracks. -/
def monitor_check_phase (cfg : Config) (start : Int)
    (check_result : String → StateData → State)
    (states : List (String × StateData)) : List (String × StateData) :=
  states.map (fun e =>
    if e.2.state = State.CHECK ∨
        (e.2.state = State.CHECK_SLOW ∧ e.2.last_check + cfg.check_slow_delay ≤ start) then
      (e.1, (⟨check_result e.1 e.2, e.2.noticed_at, start⟩ : StateData))
    else e)

/-- Forgetting pass of monitor (bot.py lines 140-150): drop entries that
are not in CHECK and were noticed at or before the retention horizon. -/
def monitor_evict (cfg : Config) (start : Int)
    (states : List (String × StateData)) : List (String × StateData) :=
  states.filter (fun e =>
    !(decide (e.2.state ≠ State.CHECK) && decide (e.2.noticed_at ≤ start - cfg.ignore_older)))

/-- State-map transformation of one monitor cycle (bot.py lines 79-152):
new-posts feed, mod-log feed (which stamps entries with its own "now",
taken after the cycle start), the check loop, and the eviction pass. -/
def monitor_states (cfg : Config) (start : Int) (new_feed : List (String × Int))
    (mod_log_now : Int) (mod_details : String) (mod_log : List ModAction)
    (check_result : String → StateData → State)
    (states : List (String × StateData)) : List (String × StateData) :=
  monitor_evict cfg start
    (monitor_check_phase cfg start check_result
      (scan_mod_log cfg mod_log_now mod_details mod_log
        (monitor_new_feed cfg start new_feed states)))

/-- Error bookkeeping of one iteration of the main loop (bot.py lines
382-392): on a caught fault the count becomes min(10, error_count),
on success it is reset to 0. -/
def main_loop_step (fault : Bool) (error_count : Int) : Int :=
  if fault then min 10 error_count else 0

/-- End-of-iteration backoff sleep (bot.py line 399). -/
def error_backoff_sleep (error_count : Int) : Int :=
  max 0 error_count * 60

/-- Concrete configuration used by witnesses and counterexamples:
warn_delay 10, remove_delay 20, ignore_older 100, check_slow_delay 10. -/
def cfg0 : Config := ⟨"f", 300, 25, 100, 10, 10, "w", 20, "r", "t"⟩

/-- Concrete top-level comment by the submitter "u". -/
def cW1 : Comment := ⟨some "u", 0, []⟩

/-- Concrete bot-removed submission whose author has commented. -/
def sW1 : Submission := ⟨some "u", some "bot", false, false, some "f", 0, [cW1]⟩

/-- Concrete bot-removed submission with no comments at all (the warning
comment was deleted by the bot's own removal pass). -/
def sC3 : Submission := ⟨some "u", some "bot", false, false, some "f", 0, []⟩

/-- Concrete tracked-post map holding one entry in the IGNORE state. -/
def exStates4 : List (String × StateData) := [("x", ⟨State.IGNORE, 0, 0⟩)]

/-- Concrete bot warning comment to which the author replied and under
which the bot's top-level-only nudge already exists. -/
def mcW6 : Comment :=
  ⟨some "bot", 0, [ReplyNode.comment (some "u") 1, ReplyNode.comment (some "bot") 2]⟩

/-- Concrete submission carrying the warning comment mcW6. -/
def sW6 : Submission := ⟨some "u", none, false, false, some "f", 0, [mcW6]⟩

/-- Sleep-interval computation of monitor (bot.py lines 164-169): with a
non-empty pull, tot_delta is the sum of the pulled posts' creation
timestamps, avg_delta their arithmetic mean, and the delay is
min(max_delay, avg_delta * pull_limit / 4 - duration); with an empty
pull the delay is max_delay. -/
def compute_delay (max_delay pull_limit : ℚ) (submitted_dates : List ℚ)
    (duration_seconds : ℚ) : ℚ :=
  if submitted_dates.isEmpty then max_delay
  else
    let tot_delta := submitted_dates.sum
    let avg_delta := tot_delta / (submitted_dates.length : ℚ)
    min max_delay (avg_delta * pull_limit / 4 - duration_seconds)

/-- Quantity named by claim C7: the average time between successive
submissions, derived from the pulled creation timestamps (newest
first).  Stated from the claim's words for comparison with the code's
compute_delay. -/
def avg_inter_submission_time (submitted_dates : List ℚ) : ℚ :=
  let gaps := (submitted_dates.zip submitted_dates.tail).map (fun p => p.1 - p.2)
  if gaps.isEmpty then 0 else gaps.sum / (gaps.length : ℚ)

/-- Sleep interval as claim C7 states it, for comparison with
compute_delay. -/
def claimed_delay (max_delay pull_limit : ℚ) (submitted_dates : List ℚ)
    (duration_seconds : ℚ) : ℚ :=
  if submitted_dates.isEmpty then max_delay
  else min max_delay
    (avg_inter_submission_time submitted_dates * pull_limit / 4 - duration_seconds)

/-- Concrete creation timestamps of a two-post pull 600 seconds apart. -/
def dates7 : List ℚ := [1000000600, 1000000000]

/-- Concrete meta-eligible, flair-matching submission. -/
def sW10 : Submission := ⟨some "u", none, false, false, some "f", 0, []⟩

/-- Concrete submission with an absent (deleted) author. -/
def sW10b : Submission := ⟨none, none, false, false, some "f", 0, []⟩

/-- Concrete abstract decision outcome for the monitor check loop. -/
def cr0 : String → StateData → State := fun _ _ => State.CHECK

/-- Concrete moderation-log action resolving to post "x". -/
def maC9 : ModAction := ⟨4, "d", "x"⟩

/-- Concrete pre-existing tracked-post map satisfying the timestamp
invariant, noticed before the cycle start 0. -/
def statesW9 : List (String × StateData) := [("a", ⟨State.CHECK, -3, -1⟩)]

/-- Author-comment matcher of the get_comments loop (bot.py line 299):
a non-deleted comment whose author equals the submitter. -/
def matches_author (submitter_name : String) (c : Comment) : Bool :=
  decide (c.author = some submitter_name)

/-- Bot-comment matcher of the get_comments loop (bot.py line 301): a
non-deleted comment that did not match the submitter and whose author is
the bot. -/
def matches_bot (submitter_name my_name : String) (c : Comment) : Bool :=
  decide (¬c.author = some submitter_name ∧ c.author = some my_name)

/-- The part of the comment list that the get_comments loop actually
scans: everything up to and including the comment at which both an
author comment and a bot comment have been seen (the break of bot.py
lines 304-305), or the whole list. -/
def scanned_upto (submitter_name my_name : String) :
    List Comment → Bool → Bool → List Comment
  | [], _, _ => []
  | c :: rest, hasA, hasB =>
    c :: (if (hasA || matches_author submitter_name c) &&
             (hasB || matches_bot submitter_name my_name c) then []
          else scanned_upto submitter_name my_name rest
            (hasA || matches_author submitter_name c)
            (hasB || matches_bot submitter_name my_name c))

/-- Last element of a list, or a default: the value a repeatedly
overwritten assignment holds after a scan. -/
def last_or (dflt : Option Comment) (l : List Comment) : Option Comment :=
  l.foldl (fun _ x => some x) dflt

/-- Concrete first author comment. -/
def exC1 : Comment := ⟨some "u", 1, []⟩

/-- Concrete second author comment. -/
def exC2 : Comment := ⟨some "u", 2, []⟩

/-- Concrete submission with two author comments and no bot comment. -/
def sC8 : Submission := ⟨some "u", none, false, false, some "f", 0, [exC1, exC2]⟩

end SCB

namespace SCB

/-- C2: a post removed by an identity other than the bot's own makes
check_submission return Ignore immediately with no mutating gateway
calls, regardless of age and of the warn/remove delays. -/
theorem human_override_precedence (cfg : Config) (my_name : String) (now : Int)
    (s : Submission) (age : Int) (u : String)
    (hbanned : s.banned_by = some u) (hne : u ≠ my_name) :
    check_submission cfg my_name now s age = ([], some State.IGNORE) := by
  unfold check_submission
  rw [hbanned]
  simp [hne]

/-- Witness for C2: a concrete submission removed by "alice" while the bot
is "bot" is ignored with no effects, even though it is old enough to warn. -/
theorem human_override_precedence_witness :
    check_submission
      ⟨"f", 300, 25, 100, 10, 10, "w", 20, "r", "t"⟩ "bot" 0
      ⟨some "u", some "alice", false, false, some "f", 0, []⟩ 50 =
      ([], some State.IGNORE) :=
  human_override_precedence _ "bot" 0 _ 50 "alice" rfl (by decide)

/-- C1: when the decision procedure reaches the comment scan (the post is
not removed by someone else) and finds a top-level comment by the post's
author, it returns Ignore, issues exactly one approve call iff the post
is currently removed by the bot, deletes the bot's warning comment iff
one exists, and on a state with neither (the state after compliance was
handled) performs no mutations at all and returns Ignore again. -/
theorem compliance_terminal (cfg : Config) (my_name : String) (now : Int)
    (s : Submission) (age : Int) (c : Comment) (wc : Option Comment) (wa : Option Int)
    (hb : s.banned_by = none ∨ s.banned_by = some my_name)
    (hget : get_comments my_name now s = some (some c, wc, wa)) :
    check_submission cfg my_name now s age =
      (approve_submission s.banned_by.isSome wc, some State.IGNORE) ∧
    (approve_submission s.banned_by.isSome wc).count Effect.approve =
      (if s.banned_by.isSome then 1 else 0) ∧
    (approve_submission s.banned_by.isSome wc).count Effect.deleteComment =
      (if wc.isSome then 1 else 0) ∧
    (s.banned_by = none → wc = none →
      check_submission cfg my_name now s age = ([], some State.IGNORE)) := by
  have key : check_submission cfg my_name now s age =
      (approve_submission s.banned_by.isSome wc, some State.IGNORE) := by
    rcases hb with hb | hb <;>
      simp [check_submission, check_submission_body, hb, hget]
  refine ⟨key, ?_, ?_, ?_⟩
  · rcases hb with hb | hb <;> rcases wc with _ | x <;>
      simp [hb, approve_submission, List.count_cons]
  · rcases hb with hb | hb <;> rcases wc with _ | x <;>
      simp [hb, approve_submission, List.count_cons]
  · intro h1 h2
    rw [key, h1, h2]
    simp [approve_submission]

/-- Witness for C1: a concrete bot-removed post whose author commented is
approved once, returns Ignore, and the cleaned-up state yields Ignore
with no effects. -/
theorem compliance_terminal_witness :
    check_submission cfg0 "bot" 0 sW1 99 =
      (approve_submission sW1.banned_by.isSome none, some State.IGNORE) ∧
    (approve_submission sW1.banned_by.isSome none).count Effect.approve =
      (if sW1.banned_by.isSome then 1 else 0) ∧
    (approve_submission sW1.banned_by.isSome none).count Effect.deleteComment =
      (if (none : Option Comment).isSome then 1 else 0) ∧
    (sW1.banned_by = none → (none : Option Comment) = none →
      check_submission cfg0 "bot" 0 sW1 99 = ([], some State.IGNORE)) :=
  compliance_terminal cfg0 "bot" 0 sW1 99 cW1 none none (Or.inr rfl) (by decide)

/-- C3 (code bug): on a post removed by the bot, with no author comment,
age past warn_delay and the warning comment gone, check_submission does
not return any of the three states: line 255 evaluates
"warn_age >= config.remove_delay" with warn_age = None and raises a
TypeError, modelled as the "none" outcome. -/
theorem decision_totality_failure :
    check_submission cfg0 "bot" 0 sC3 15 = ([], none) := by decide

/-- C4 (code bug): found_submission on an already-tracked post in the
IGNORE state is a plain no-op; the entry is not reset to CHECK, contrary
to the resurrection behaviour the code's own comments describe. -/
theorem discovery_no_resurrection :
    found_submission exStates4 "x" 5 = exStates4 ∧
    (found_submission exStates4 "x" 5).lookup "x" =
      some ⟨State.IGNORE, 0, 0⟩ ∧
    State.IGNORE ≠ State.CHECK := by decide

/-- C5 (code bug): the consecutive-fault count never increases —
"error_count = min(10, error_count)" leaves 0 at 0 — so after any number
of consecutive faulting cycles the backoff sleep is 0, never strictly
positive. -/
theorem fault_backoff_never_positive :
    ∀ n : Nat, error_backoff_sleep ((main_loop_step true)^[n] 0) = 0 := by
  have h : ∀ n : Nat, (main_loop_step true)^[n] 0 = 0 := by
    intro n
    induction n with
    | zero => rfl
    | succ k ih =>
      rw [Function.iterate_succ_apply', ih]
      norm_num [main_loop_step]
  intro n
  rw [h n]
  norm_num [error_backoff_sleep]

/-- Helper for C6: a reply-level scan for a name that occurs among the
replies never completes with the answer "no reply found": it either
returns a found reply or raises on an earlier deleted reply. -/
theorem check_replied_to_comment_found (name : String) (t : Int) :
    ∀ replies : List ReplyNode, ReplyNode.comment (some name) t ∈ replies →
      check_replied_to_comment name replies ≠ some none := by
  intro replies
  induction replies with
  | nil => intro h; exact absurd h (by simp)
  | cons r rest ih =>
    intro hmem
    rcases List.mem_cons.mp hmem with heq | htail
    · rw [← heq]
      simp [check_replied_to_comment]
    · cases r with
      | more => simpa [check_replied_to_comment] using ih htail
      | comment a t2 =>
        cases a with
        | none => simp [check_replied_to_comment]
        | some an =>
          by_cases han : an = name
          · simp [check_replied_to_comment, han]
          · simpa [check_replied_to_comment, han] using ih htail

/-- C6: one invocation of check_tell_user_top_level_only sends the
top-level-only nudge at most once, and whenever a bot-authored reply
(the previously-sent nudge) is already present under the warning
comment, the invocation performs no mutations at all. -/
theorem nudge_idempotent (cfg : Config) (my_name : String) (s : Submission)
    (my_comment : Comment) :
    (check_tell_user_top_level_only cfg my_name s my_comment).1.count
        (Effect.replyComment cfg.top_level_only_message) ≤ 1 ∧
    (∀ t : Int, ReplyNode.comment (some my_name) t ∈ my_comment.replies →
      (check_tell_user_top_level_only cfg my_name s my_comment).1 = []) := by
  constructor
  · unfold check_tell_user_top_level_only
    cases s.author with
    | none => simp
    | some an =>
      cases h1 : check_replied_to_comment an my_comment.replies with
      | none => simp [h1]
      | some o1 =>
        cases o1 with
        | none => simp [h1]
        | some r1 =>
          cases h2 : check_replied_to_comment my_name my_comment.replies with
          | none => simp [h1, h2]
          | some o2 =>
            cases o2 <;> simp [h1, h2, tell_user_top_level_only, List.count_cons]
  · intro t hmem
    have hne := check_replied_to_comment_found my_name t my_comment.replies hmem
    unfold check_tell_user_top_level_only
    cases s.author with
    | none => simp
    | some an =>
      cases h1 : check_replied_to_comment an my_comment.replies with
      | none => simp [h1]
      | some o1 =>
        cases o1 with
        | none => simp [h1]
        | some r1 =>
          cases h2 : check_replied_to_comment my_name my_comment.replies with
          | none => simp [h1, h2]
          | some o2 =>
            cases o2 with
            | none => exact absurd h2 hne
            | some r2 => simp [h1, h2]

/-- Witness for C6: with the nudge already present under the concrete
warning comment mcW6, the invocation emits no effects. -/
theorem nudge_idempotent_witness :
    (check_tell_user_top_level_only cfg0 "bot" sW6 mcW6).1 = [] :=
  (nudge_idempotent cfg0 "bot" sW6 mcW6).2 2 (by decide)

/-- C7 (code bug): the code averages the raw creation timestamps instead
of the inter-submission gaps.  On a two-post pull 600 s apart with
max_delay 6000 s, pull_limit 25 and zero cycle duration, the code sleeps
6000 while the claim's formula gives min(6000, 600*25/4 - 0) = 3750. -/
theorem adaptive_delay_mismatch :
    compute_delay 6000 25 dates7 0 = 6000 ∧
    claimed_delay 6000 25 dates7 0 = 3750 ∧ (6000 : ℚ) ≠ 3750 := by
  refine ⟨?_, ?_, by norm_num⟩
  · rw [compute_delay]
    norm_num [dates7, min_def]
  · rw [claimed_delay]
    norm_num [dates7, avg_inter_submission_time, min_def]

/-- C10: a post passing both check_sub_meta and check_sub_flair — the
only condition under which the monitor loop invokes check_submission —
has a present author, is not approved and is not a self post, so the
author dereference in get_comments succeeds; moreover a post with an
absent author never reaches check_submission (the monitor branch maps it
straight to Ignore). -/
theorem precondition_safety (cfg : Config) (my_name : String) (start now : Int)
    (s : Submission) :
    ((check_sub_meta s && check_sub_flair cfg s) = true →
      s.author.isSome = true ∧ s.approved = false ∧ s.is_self = false ∧
      (get_comments my_name now s).isSome = true) ∧
    (s.author = none → monitor_decide cfg my_name start now s = some State.IGNORE) := by
  constructor
  · intro h
    have hm : check_sub_meta s = true := by
      simp only [Bool.and_eq_true] at h
      exact h.1
    unfold check_sub_meta at hm
    split_ifs at hm with h1 h2 h3
    have hauthor : s.author ≠ none := by
      intro hc
      exact h3 (by simp [hc])
    refine ⟨Option.isSome_iff_ne_none.mpr hauthor, by simpa using h2, by simpa using h1, ?_⟩
    cases ha : s.author with
    | none => exact absurd ha hauthor
    | some an => simp [get_comments, ha]
  · intro ha
    have hmeta : check_sub_meta s = false := by
      unfold check_sub_meta
      simp [ha]
    unfold monitor_decide
    simp [hmeta]

/-- Witness for C10: the concrete candidate sW10 passes the guards and
its comment scan succeeds; the concrete authorless sW10b is mapped to
Ignore by the monitor branch. -/
theorem precondition_safety_witness :
    (get_comments "bot" 0 sW10).isSome = true ∧
    monitor_decide cfg0 "bot" 0 0 sW10b = some State.IGNORE :=
  ⟨((precondition_safety cfg0 "bot" 0 0 sW10).1 (by decide)).2.2.2,
   (precondition_safety cfg0 "bot" 0 0 sW10b).2 rfl⟩

/-- Helper for C9: a member of the map after found_submission is either a
pre-existing entry or the freshly-created CHECK entry. -/
theorem found_submission_mem (st : List (String × StateData)) (id : String)
    (t : Int) (p : String × StateData) (hp : p ∈ found_submission st id t) :
    p ∈ st ∨ p.2 = StateData.make State.CHECK t := by
  unfold found_submission at hp
  split at hp
  · exact Or.inl hp
  · rcases List.mem_append.mp hp with h1 | h2
    · exact Or.inl h1
    · simp only [List.mem_singleton] at h2
      exact Or.inr (by rw [h2])

/-- Helper for C9: members of a fold whose step either preserves the map
or inserts entries satisfying Q. -/
theorem mem_foldl_step {α : Type}
    (g : List (String × StateData) → α → List (String × StateData))
    (Q : String × StateData → Prop)
    (hg : ∀ st x p, p ∈ g st x → p ∈ st ∨ Q p) :
    ∀ (l : List α) (st : List (String × StateData)) (p : String × StateData),
      p ∈ l.foldl g st → p ∈ st ∨ Q p := by
  intro l
  induction l with
  | nil => intro st p hp; exact Or.inl hp
  | cons x xs ih =>
    intro st p hp
    rw [List.foldl_cons] at hp
    rcases ih (g st x) p hp with h1 | h2
    · exact hg st x p h1
    · exact Or.inr h2

/-- C9 (amended): after one monitor cycle, lastCheckedAt >= noticedAt
holds for every tracked entry except possibly those first noticed by the
moderation-log feed during this cycle (noticedAt = that feed's own
"now", recorded after the cycle start) and checked in the same cycle,
which end with lastCheckedAt = the earlier cycle start. -/
theorem timestamp_invariant_amended (cfg : Config) (start mod_log_now : Int)
    (new_feed : List (String × Int)) (mod_details : String) (mod_log : List ModAction)
    (check_result : String → StateData → State) (states : List (String × StateData))
    (hpre : ∀ p ∈ states, p.2.noticed_at ≤ p.2.last_check ∧ p.2.noticed_at ≤ start) :
    ∀ p ∈ monitor_states cfg start new_feed mod_log_now mod_details mod_log
        check_result states,
      p.2.noticed_at ≤ p.2.last_check ∨
      (p.2.noticed_at = mod_log_now ∧ p.2.last_check = start) := by
  intro p hp
  unfold monitor_states monitor_evict at hp
  have hp3 := List.mem_of_mem_filter hp
  unfold monitor_check_phase at hp3
  rcases List.mem_map.mp hp3 with ⟨q, hq2, hqe⟩
  have hq1 : q ∈ monitor_new_feed cfg start new_feed states ∨
      q.2 = StateData.make State.CHECK mod_log_now := by
    unfold scan_mod_log at hq2
    refine mem_foldl_step _
      (fun r => r.2 = StateData.make State.CHECK mod_log_now) ?_ mod_log _ q hq2
    intro st x r hr
    split at hr
    · split at hr
      · exact found_submission_mem st x.target_id mod_log_now r hr
      · exact Or.inl hr
    · exact Or.inl hr
  have hq0 : (q ∈ states ∨ q.2 = StateData.make State.CHECK start) ∨
      q.2 = StateData.make State.CHECK mod_log_now := by
    rcases hq1 with hq1 | hq1
    · unfold monitor_new_feed at hq1
      refine Or.inl (mem_foldl_step _
        (fun r => r.2 = StateData.make State.CHECK start) ?_ new_feed _ q hq1)
      intro st x r hr
      split at hr
      · exact found_submission_mem st x.1 start r hr
      · exact Or.inl hr
    · exact Or.inr hq1
  have hq_inv : q.2.noticed_at ≤ q.2.last_check ∧
      (q.2.noticed_at ≤ start ∨ q.2.noticed_at = mod_log_now) := by
    rcases hq0 with (hq | hq) | hq
    · exact ⟨(hpre q hq).1, Or.inl (hpre q hq).2⟩
    · rw [hq]
      exact ⟨le_refl _, Or.inl (le_refl _)⟩
    · rw [hq]
      exact ⟨le_refl _, Or.inr rfl⟩
  split at hqe
  · rw [← hqe]
    rcases hq_inv.2 with hn | hn
    · exact Or.inl hn
    · exact Or.inr ⟨hn, rfl⟩
  · rw [← hqe]
    exact Or.inl hq_inv.1

/-- Witness for C9's amended statement: the mod-log-added entry checked
in the same cycle lands in the allowed exception (noticedAt 5,
lastCheckedAt 0). -/
theorem timestamp_invariant_amended_witness :
    (StateData.mk State.CHECK 5 0).noticed_at ≤ (StateData.mk State.CHECK 5 0).last_check ∨
    ((StateData.mk State.CHECK 5 0).noticed_at = 5 ∧
     (StateData.mk State.CHECK 5 0).last_check = 0) :=
  timestamp_invariant_amended cfg0 0 5 [] "d" [maC9] cr0 statesW9 (by decide)
    ("x", ⟨State.CHECK, 5, 0⟩) (by decide)

/-- Counterexample for C9 as stated: a post added by the moderation-log
feed at its own time 5, during a cycle whose recorded start is 0, is
checked in the same cycle and ends with lastCheckedAt = 0 < noticedAt =
5 — the claimed invariant fails. -/
theorem timestamp_invariant_counterexample :
    (monitor_states cfg0 0 [] 5 "d" [maC9] cr0 []).lookup "x" =
      some ⟨State.CHECK, 5, 0⟩ ∧ ¬((5 : Int) ≤ 0) := by decide

/-- Helper for C8: appending one element shifts the default of
last_or. -/
theorem last_or_cons (d : Option Comment) (x : Comment) (l : List Comment) :
    last_or d (x :: l) = last_or (some x) l := rfl

/-- Helper for C8: a comment produced by last_or comes from the list or
is the default. -/
theorem last_or_mem :
    ∀ (l : List Comment) (d : Option Comment) (c : Comment),
      last_or d l = some c → c ∈ l ∨ d = some c := by
  intro l
  induction l with
  | nil => intro d c h; exact Or.inr h
  | cons x xs ih =>
    intro d c h
    rcases ih (some x) c h with h1 | h2
    · exact Or.inl (List.mem_cons_of_mem _ h1)
    · exact Or.inl (by rw [← Option.some.inj h2]; exact List.mem_cons_self x xs)

/-- Helper for C8: the get_comments loop returns, for each of the two
roles, the last matching comment of the scanned part of the list, with
the bot-comment age tied to the returned bot comment. -/
theorem get_comments_go_char (sn mn : String) (now : Int) :
    ∀ (cs : List Comment) (a b : Option Comment) (ba : Option Int),
      ¬(a.isSome = true ∧ b.isSome = true) →
      ba = b.map (fun c => now - c.created_utc) →
      get_comments_go sn mn now cs a b ba =
        (last_or a ((scanned_upto sn mn cs a.isSome b.isSome).filter (matches_author sn)),
         last_or b ((scanned_upto sn mn cs a.isSome b.isSome).filter (matches_bot sn mn)),
         (last_or b ((scanned_upto sn mn cs a.isSome b.isSome).filter (matches_bot sn mn))).map
           (fun c => now - c.created_utc)) := by
  intro cs
  induction cs with
  | nil =>
    intro a b ba hab hba
    simp [get_comments_go, scanned_upto, last_or, hba]
  | cons c rest ih =>
    intro a b ba hab hba
    cases hca : c.author with
    | none =>
      have hma : matches_author sn c = false := by simp [matches_author, hca]
      have hmb : matches_bot sn mn c = false := by simp [matches_bot, hca]
      have hab2 : (a.isSome && b.isSome) = false := by
        rcases Bool.eq_false_or_eq_true a.isSome with h | h <;>
          rcases Bool.eq_false_or_eq_true b.isSome with h2 | h2 <;> simp_all
      have hL : get_comments_go sn mn now (c :: rest) a b ba =
          get_comments_go sn mn now rest a b ba := by
        rw [get_comments_go, hca]
      have hS : scanned_upto sn mn (c :: rest) a.isSome b.isSome =
          c :: scanned_upto sn mn rest a.isSome b.isSome := by
        rw [scanned_upto, hma, hmb]
        simp [hab2]
      rw [hL, ih a b ba hab hba, hS]
      simp [List.filter_cons, hma, hmb]
    | some an =>
      by_cases h1 : an = sn
      · subst h1
        have hma : matches_author an c = true := by simp [matches_author, hca]
        have hmb : matches_bot an mn c = false := by simp [matches_bot, hca]
        have hL : get_comments_go an mn now (c :: rest) a b ba =
            (if b.isSome then (some c, b, ba)
             else get_comments_go an mn now rest (some c) b ba) := by
          rw [get_comments_go, hca]
          simp
        cases b with
        | some bc =>
          simp only [Option.map_some'] at hba
          subst hba
          rw [hL]
          simp [scanned_upto, hma, hmb, List.filter_cons, last_or]
        | none =>
          simp only [Option.map_none'] at hba
          subst hba
          rw [hL]
          simp only [Option.isSome_none, Bool.false_eq_true, if_false]
          rw [ih (some c) none none (by simp) rfl]
          have hS : scanned_upto an mn (c :: rest) a.isSome false =
              c :: scanned_upto an mn rest true false := by
            rw [scanned_upto, hma, hmb]
            simp
          rw [hS]
          simp [List.filter_cons, hma, hmb, last_or_cons]
      · by_cases h2 : an = mn
        · subst h2
          have hma : matches_author sn c = false := by
            simp [matches_author, hca, h1]
          have hmb : matches_bot sn an c = true := by
            simp [matches_bot, hca, h1]
          have hL : get_comments_go sn an now (c :: rest) a b ba =
              (if a.isSome then (a, some c, some (now - c.created_utc))
               else get_comments_go sn an now rest a (some c)
                 (some (now - c.created_utc))) := by
            rw [get_comments_go, hca]
            simp [h1]
          cases a with
          | some ac =>
            rw [hL]
            simp [scanned_upto, hma, hmb, List.filter_cons, last_or, hba]
          | none =>
            rw [hL]
            simp only [Option.isSome_none, Bool.false_eq_true, if_false]
            rw [ih none (some c) (some (now - c.created_utc)) (by simp) rfl]
            have hS : scanned_upto sn an (c :: rest) false b.isSome =
                c :: scanned_upto sn an rest false true := by
              rw [scanned_upto, hma, hmb]
              simp
            rw [hS]
            simp [List.filter_cons, hma, hmb, last_or_cons]
        · have hma : matches_author sn c = false := by
            simp [matches_author, hca, h1]
          have hmb : matches_bot sn mn c = false := by
            simp [matches_bot, hca, h2]
          have hab2 : (a.isSome && b.isSome) = false := by
            rcases Bool.eq_false_or_eq_true a.isSome with h | h <;>
              rcases Bool.eq_false_or_eq_true b.isSome with h3 | h3 <;> simp_all
          have hL : get_comments_go sn mn now (c :: rest) a b ba =
              get_comments_go sn mn now rest a b ba := by
            rw [get_comments_go, hca]
            simp [h1, h2]
          have hS : scanned_upto sn mn (c :: rest) a.isSome b.isSome =
              c :: scanned_upto sn mn rest a.isSome b.isSome := by
            rw [scanned_upto, hma, hmb]
            simp [hab2]
          rw [hL, ih a b ba hab hba, hS]
          simp [List.filter_cons, hma, hmb]

/-- C8 (amended): get_comments scans the comment list only up to the
point where both an author comment and a bot comment have been seen (or
to the end), and within that scanned part it returns the LAST author
comment and the LAST bot comment — not the first in feed order — with
the bot-comment age derived from the returned bot comment; deleted
(authorless) comments are never matched. -/
theorem scanner_returns_last (my_name : String) (now : Int) (s : Submission)
    (sn : String) (ha : s.author = some sn) :
    get_comments my_name now s =
      some (last_or none ((scanned_upto sn my_name s.comments false false).filter
              (matches_author sn)),
            last_or none ((scanned_upto sn my_name s.comments false false).filter
              (matches_bot sn my_name)),
            (last_or none ((scanned_upto sn my_name s.comments false false).filter
              (matches_bot sn my_name))).map (fun c => now - c.created_utc)) ∧
    (∀ c, last_or none ((scanned_upto sn my_name s.comments false false).filter
        (matches_author sn)) = some c → c.author = some sn) ∧
    (∀ c, last_or none ((scanned_upto sn my_name s.comments false false).filter
        (matches_bot sn my_name)) = some c → c.author = some my_name) := by
  refine ⟨?_, ?_, ?_⟩
  · unfold get_comments
    rw [ha]
    exact congrArg some
      (get_comments_go_char sn my_name now s.comments none none none (by simp) rfl)
  · intro c hc
    rcases last_or_mem _ _ _ hc with hmem | hd
    · have hf := List.of_mem_filter hmem
      simpa [matches_author] using hf
    · exact Option.noConfusion hd
  · intro c hc
    rcases last_or_mem _ _ _ hc with hmem | hd
    · have hf := List.of_mem_filter hmem
      have hf2 : ¬c.author = some sn ∧ c.author = some my_name := by
        simpa [matches_bot] using hf
      exact hf2.2
    · exact Option.noConfusion hd

/-- Witness for C8's amended statement at the concrete two-author-comment
submission sC8. -/
theorem scanner_returns_last_witness :
    get_comments "bot" 0 sC8 =
      some (last_or none ((scanned_upto "u" "bot" sC8.comments false false).filter
              (matches_author "u")),
            last_or none ((scanned_upto "u" "bot" sC8.comments false false).filter
              (matches_bot "u" "bot")),
            (last_or none ((scanned_upto "u" "bot" sC8.comments false false).filter
              (matches_bot "u" "bot"))).map (fun c => (0 : Int) - c.created_utc)) :=
  (scanner_returns_last "bot" 0 sC8 "u" rfl).1

/-- Counterexample for C8 as stated: on a post whose comment list holds
two author comments and no bot comment, get_comments returns the SECOND
author comment, not the first in feed order. -/
theorem scanner_first_match_counterexample :
    get_comments "bot" 0 sC8 = some (some exC2, none, none) ∧
    sC8.comments.filter (matches_author "u") = [exC1, exC2] ∧
    exC1 ≠ exC2 := by decide

end SCB
